import Mathlib

/-!
Shallow embedding of the `Voting` contract (`contract Voting` in the
repository's Solidity sources: owner, electionActive, electionStart,
electionEnd, pollTitle, electionId, choices, whitelistAddresses,
isWhitelisted, lastVotedElection, lastVotedChoice, lastVotedAt).

Addresses are modelled as `Nat` (0 is the zero address), `uint256` as `Nat`,
mappings as total functions with the EVM default (0 / false).  Every external
function takes the caller (`sender`) and, where the body reads
`block.timestamp`, a `timestamp` argument, and returns `Except String VState`:
`Except.error msg` models a failed `require(_, msg)`, which on the EVM reverts
the whole transaction, so the caller observes the pre-call state unchanged.
Loops with a `require` inside are translated structurally (the loop function
threads the partially-updated state and drops it on error, exactly the
observable revert semantics).
-/

namespace Voting

structure Choice where
  label : String
  votes : Nat
deriving Repr, DecidableEq

structure VState where
  owner : Nat
  electionActive : Bool
  electionStart : Nat
  electionEnd : Nat
  pollTitle : String
  electionId : Nat
  choices : List Choice
  whitelistAddresses : List Nat
  isWhitelisted : Nat → Bool
  lastVotedElection : Nat → Nat
  lastVotedChoice : Nat → Nat
  lastVotedAt : Nat → Nat

/-- constructor() - owner := msg.sender, everything else at EVM defaults. -/
def initialState (sender : Nat) : VState :=
  { owner := sender
    electionActive := false
    electionStart := 0
    electionEnd := 0
    pollTitle := ""
    electionId := 0
    choices := []
    whitelistAddresses := []
    isWhitelisted := fun _ => false
    lastVotedElection := fun _ => 0
    lastVotedChoice := fun _ => 0
    lastVotedAt := fun _ => 0 }

/-- setPollTitle: onlyOwner onlyWhenInactive, then pollTitle := title. -/
def setPollTitle (sender : Nat) (title : String) (s : VState) :
    Except String VState :=
  if sender = s.owner then
    if s.electionActive then .error "Election active"
    else .ok { s with pollTitle := title }
  else .error "Only owner"

/-- loop body of setChoices: for each label require it non-empty and push
a Choice with zero votes. -/
def setChoicesLoop : List String → VState → Except String VState
  | [], s => .ok s
  | l :: rest, s =>
    if l.isEmpty then .error "Empty choice"
    else setChoicesLoop rest
      { s with choices := s.choices ++ [{ label := l, votes := 0 }] }

/-- setChoices: onlyOwner onlyWhenInactive; require labels non-empty;
delete choices; push each label with a non-emptiness require inside the
loop. -/
def setChoices (sender : Nat) (labels : List String) (s : VState) :
    Except String VState :=
  if sender = s.owner then
    if s.electionActive then .error "Election active"
    else if labels.length = 0 then .error "No choices"
    else setChoicesLoop labels { s with choices := [] }
  else .error "Only owner"

/-- Internal _clearWhitelist: flip the flag of every tracked address to
false, then delete the array. -/
def clearWhitelist (s : VState) : VState :=
  { s with
    isWhitelisted := fun a =>
      if s.whitelistAddresses.contains a then false else s.isWhitelisted a
    whitelistAddresses := [] }

/-- The body of the whitelist-insertion branch shared by setWhitelist's loop
and addToWhitelist: if the voter is not flagged, flag it and push it onto
the enumeration array. -/
def addOne (voter : Nat) (s : VState) : VState :=
  if s.isWhitelisted voter then s
  else
    { s with
      isWhitelisted := fun a => if a = voter then true else s.isWhitelisted a
      whitelistAddresses := s.whitelistAddresses ++ [voter] }

/-- loop body of setWhitelist: require each voter non-zero, then insert. -/
def setWhitelistLoop : List Nat → VState → Except String VState
  | [], s => .ok s
  | v :: rest, s =>
    if v = 0 then .error "Invalid voter"
    else setWhitelistLoop rest (addOne v s)

/-- setWhitelist: onlyOwner onlyWhenInactive; require voters non-empty;
_clearWhitelist(); loop with the zero-address require inside. -/
def setWhitelist (sender : Nat) (voters : List Nat) (s : VState) :
    Except String VState :=
  if sender = s.owner then
    if s.electionActive then .error "Election active"
    else if voters.length = 0 then .error "No voters"
    else setWhitelistLoop voters (clearWhitelist s)
  else .error "Only owner"

/-- addToWhitelist: onlyOwner onlyWhenInactive; require voter non-zero;
insert when not currently flagged (no-op otherwise). -/
def addToWhitelist (sender voter : Nat) (s : VState) :
    Except String VState :=
  if sender = s.owner then
    if s.electionActive then .error "Election active"
    else if voter = 0 then .error "Invalid voter"
    else .ok (addOne voter s)
  else .error "Only owner"

/-- removeFromWhitelist: onlyOwner onlyWhenInactive; require currently
flagged; flip the flag to false (the enumeration array is untouched). -/
def removeFromWhitelist (sender voter : Nat) (s : VState) :
    Except String VState :=
  if sender = s.owner then
    if s.electionActive then .error "Election active"
    else if s.isWhitelisted voter then
      .ok { s with
        isWhitelisted := fun a => if a = voter then false else s.isWhitelisted a }
    else .error "Not whitelisted"
  else .error "Only owner"

/-- Internal _resetVotes: zero every choice's vote counter. -/
def resetVotes (cs : List Choice) : List Choice :=
  cs.map fun c => { c with votes := 0 }

/-- Internal _activeWhitelistCount: count tracked addresses whose flag is
currently true. -/
def activeWhitelistCount (s : VState) : Nat :=
  s.whitelistAddresses.countP fun a => s.isWhitelisted a

/-- startElection: onlyOwner; require not active, some choices, some active
whitelist entry; then reset votes, electionId += 1, activate, stamp the
start time, clear the end time. -/
def startElection (sender timestamp : Nat) (s : VState) :
    Except String VState :=
  if sender = s.owner then
    if s.electionActive then .error "Election already active"
    else if s.choices.length = 0 then .error "No choices"
    else if activeWhitelistCount s = 0 then .error "No voters"
    else .ok { s with
      choices := resetVotes s.choices
      electionId := s.electionId + 1
      electionActive := true
      electionStart := timestamp
      electionEnd := 0 }
  else .error "Only owner"

/-- endElection: onlyOwner; require active; deactivate and stamp the end
time. -/
def endElection (sender timestamp : Nat) (s : VState) :
    Except String VState :=
  if sender = s.owner then
    if s.electionActive then
      .ok { s with electionActive := false, electionEnd := timestamp }
    else .error "Election already ended"
  else .error "Only owner"

/-- choices[i].votes += 1 (out-of-range index leaves the list unchanged;
vote only calls it in range). -/
def bumpVotes : List Choice → Nat → List Choice
  | [], _ => []
  | c :: rest, 0 => { c with votes := c.votes + 1 } :: rest
  | c :: rest, Nat.succ n => c :: bumpVotes rest n

/-- vote: onlyWhileActive (no owner check); require the index in range, the
caller flagged, and lastVotedElection[msg.sender] < electionId; then record
the vote and bump the chosen counter. -/
def vote (sender timestamp choiceIndex : Nat) (s : VState) :
    Except String VState :=
  if s.electionActive then
    if choiceIndex < s.choices.length then
      if s.isWhitelisted sender then
        if s.lastVotedElection sender < s.electionId then
          .ok { s with
            lastVotedElection := fun a =>
              if a = sender then s.electionId else s.lastVotedElection a
            lastVotedChoice := fun a =>
              if a = sender then choiceIndex else s.lastVotedChoice a
            lastVotedAt := fun a =>
              if a = sender then timestamp else s.lastVotedAt a
            choices := bumpVotes s.choices choiceIndex }
        else .error "Already voted"
      else .error "Not whitelisted"
    else .error "Invalid choice"
  else .error "Election not active"

/-- choiceCount view. -/
def choiceCount (s : VState) : Nat := s.choices.length

/-- choiceInfo view: require the index in range, return (label, votes). -/
def choiceInfo (s : VState) (choiceIndex : Nat) :
    Except String (String × Nat) :=
  match s.choices.get? choiceIndex with
  | some c => .ok (c.label, c.votes)
  | none => .error "Invalid choice"

/-- whitelistCount view: length of the enumeration array. -/
def whitelistCount (s : VState) : Nat := s.whitelistAddresses.length

/-- whitelistEntry view: require the index in range, return the tracked
address together with its current flag. -/
def whitelistEntry (s : VState) (index : Nat) : Except String (Nat × Bool) :=
  match s.whitelistAddresses.get? index with
  | some addr => .ok (addr, s.isWhitelisted addr)
  | none => .error "Invalid voter"

/-- voterStatus view: voted-this-election is recomputed from the epoch
comparison at read time. -/
def voterStatus (s : VState) (voter : Nat) : Bool × Bool × Nat × Nat :=
  let votedThis := s.lastVotedElection voter = s.electionId
  ( s.isWhitelisted voter
  , votedThis
  , if votedThis then s.lastVotedChoice voter else 0
  , if votedThis then s.lastVotedAt voter else 0 )

/-- Result of getWinner. -/
structure WinnerInfo where
  winnerIndex : Nat
  label : String
  votes : Nat
  hasTie : Bool
  hasWinner : Bool
deriving Repr, DecidableEq

/-- The body of getWinner's for-loop: (topVotes, topIndex, tie, found)
threaded through the remaining choices, i the index of the head. -/
def winnerLoop : List Choice → Nat → Nat → Nat → Bool → Bool →
    Nat × Nat × Bool × Bool
  | [], _, topVotes, topIndex, tie, found => (topVotes, topIndex, tie, found)
  | c :: rest, i, topVotes, topIndex, tie, found =>
    if found = false ∨ topVotes < c.votes then
      winnerLoop rest (i + 1) c.votes i false true
    else if c.votes = topVotes then
      winnerLoop rest (i + 1) topVotes topIndex true found
    else
      winnerLoop rest (i + 1) topVotes topIndex tie found

/-- getWinner view: single pass, then either the empty default or the
running leader. -/
def getWinner (s : VState) : WinnerInfo :=
  let r := winnerLoop s.choices 0 0 0 false false
  if r.2.2.2 = false then
    { winnerIndex := 0, label := "", votes := 0, hasTie := false
      hasWinner := false }
  else
    { winnerIndex := r.2.1
      label := ((s.choices.getD r.2.1 { label := "", votes := 0 }).label)
      votes := r.1
      hasTie := r.2.2.1
      hasWinner := true }

/-- Maximum vote count over a choice list (0 when empty). -/
def maxVotes : List Choice → Nat
  | [] => 0
  | c :: rest => max c.votes (maxVotes rest)

/-- A mutating external call of the contract, with its caller and, where the
body reads block.timestamp, the environment-supplied timestamp. -/
inductive Op where
  | setPollTitle (sender : Nat) (title : String)
  | setChoices (sender : Nat) (labels : List String)
  | setWhitelist (sender : Nat) (voters : List Nat)
  | addToWhitelist (sender voter : Nat)
  | removeFromWhitelist (sender voter : Nat)
  | startElection (sender timestamp : Nat)
  | endElection (sender timestamp : Nat)
  | vote (sender timestamp choiceIndex : Nat)

/-- Dispatch an external call. -/
def applyOp : Op → VState → Except String VState
  | .setPollTitle sender title, s => setPollTitle sender title s
  | .setChoices sender labels, s => setChoices sender labels s
  | .setWhitelist sender voters, s => setWhitelist sender voters s
  | .addToWhitelist sender voter, s => addToWhitelist sender voter s
  | .removeFromWhitelist sender voter, s => removeFromWhitelist sender voter s
  | .startElection sender ts, s => startElection sender ts s
  | .endElection sender ts, s => endElection sender ts s
  | .vote sender ts i, s => vote sender ts i s

/-- EVM transaction semantics: a reverted call leaves the state exactly as
before. -/
def commit (s : VState) (r : Except String VState) : VState :=
  match r with
  | .ok s' => s'
  | .error _ => s

/-- Run one call at transaction level. -/
def execOp (op : Op) (s : VState) : VState := commit s (applyOp op s)

/-- Run a sequence of calls at transaction level. -/
def execOps (ops : List Op) (s : VState) : VState :=
  ops.foldl (fun s op => execOp op s) s

/-- States reachable from a freshly deployed contract by any sequence of
external calls. -/
def Reachable (s : VState) : Prop :=
  ∃ deployer ops, execOps ops (initialState deployer) = s

/-- Observable outcome of a call: the revert message, or none on success. -/
def errOf : Except String VState → Option String
  | .error e => some e
  | .ok _ => none

/-- State invariant maintained by every external call: a flagged address is
tracked in the enumeration array, no recorded last-voted election exceeds
the current electionId, and while the election is active anyone recorded as
having voted in the current election is still flagged. -/
def Inv (s : VState) : Prop :=
  (∀ a, s.isWhitelisted a = true → a ∈ s.whitelistAddresses) ∧
  (∀ a, s.lastVotedElection a ≤ s.electionId) ∧
  (s.electionActive = true →
    ∀ a, s.lastVotedElection a = s.electionId → s.isWhitelisted a = true)

/-- A whitelist with no duplicate enumeration entry and every tracked
address currently flagged (the shape produced by setWhitelist, destroyed by
removeFromWhitelist). -/
def WhitelistSound (s : VState) : Prop :=
  s.whitelistAddresses.Nodup ∧
  ∀ a ∈ s.whitelistAddresses, s.isWhitelisted a = true

/-- A concrete mid-election state: two choices, addresses 1 and 2
whitelisted, election 1 running, nobody has voted yet. -/
def sActive : VState :=
  { owner := 7
    electionActive := true
    electionStart := 100
    electionEnd := 0
    pollTitle := "poll"
    electionId := 1
    choices := [{ label := "A", votes := 0 }, { label := "B", votes := 0 }]
    whitelistAddresses := [1, 2]
    isWhitelisted := fun a => a == 1 || a == 2
    lastVotedElection := fun _ => 0
    lastVotedChoice := fun _ => 0
    lastVotedAt := fun _ => 0 }

/-- Deploy, configure, start election 1, and let address 1 vote for
choice 0. -/
def voteOps : List Op :=
  [ .setChoices 7 ["A", "B"]
  , .setWhitelist 7 [1, 2]
  , .startElection 7 100
  , .vote 1 150 0 ]

/-- The state after voteOps: election 1 active and address 1 has voted. -/
def sVoted : VState := execOps voteOps (initialState 7)

/-- Add address 1, remove it again, then re-add it. -/
def dupOps : List Op :=
  [ .addToWhitelist 7 1
  , .removeFromWhitelist 7 1
  , .addToWhitelist 7 1 ]

/-- The state after dupOps. -/
def sDup : VState := execOps dupOps (initialState 7)

/-- The state after a single setWhitelist with a duplicated input list. -/
def sAfterSet : VState := execOp (.setWhitelist 7 [1, 2, 1]) (initialState 7)

/-- A configured but not yet started state: two choices and two
whitelisted addresses. -/
def sConfig : VState :=
  execOps [.setChoices 7 ["A", "B"], .setWhitelist 7 [1, 2]] (initialState 7)

/-- A state with tallied votes [3, 3, 1] for exercising getWinner. -/
def sTally : VState :=
  { sActive with
    choices := [ { label := "A", votes := 3 }
               , { label := "B", votes := 3 }
               , { label := "C", votes := 1 } ] }

end Voting

namespace Voting

/-! Helper lemmas about the list-manipulating internals. -/

lemma bumpVotes_length (cs : List Choice) (i : Nat) :
    (bumpVotes cs i).length = cs.length := by
  induction cs generalizing i with
  | nil => rfl
  | cons c rest ih =>
    cases i with
    | zero => rfl
    | succ n => simp [bumpVotes, ih]

lemma bumpVotes_get?_self (cs : List Choice) (i : Nat) :
    (bumpVotes cs i).get? i =
      (cs.get? i).map (fun c => { c with votes := c.votes + 1 }) := by
  induction cs generalizing i with
  | nil => cases i <;> rfl
  | cons c rest ih =>
    cases i with
    | zero => rfl
    | succ n => simpa [bumpVotes] using ih n

lemma bumpVotes_get?_ne (cs : List Choice) (i j : Nat) (h : j ≠ i) :
    (bumpVotes cs i).get? j = cs.get? j := by
  induction cs generalizing i j with
  | nil => rfl
  | cons c rest ih =>
    cases i with
    | zero =>
      cases j with
      | zero => exact absurd rfl h
      | succ m => rfl
    | succ n =>
      cases j with
      | zero => rfl
      | succ m =>
        simpa [bumpVotes] using ih n m (fun hh => h (by rw [hh]))

lemma resetVotes_length (cs : List Choice) :
    (resetVotes cs).length = cs.length := by
  simp [resetVotes]

lemma resetVotes_votes (cs : List Choice) :
    ∀ c ∈ resetVotes cs, c.votes = 0 := by
  intro c hc
  simp only [resetVotes, List.mem_map] at hc
  obtain ⟨d, _, rfl⟩ := hc
  rfl

lemma resetVotes_get?_label (cs : List Choice) (j : Nat) :
    ((resetVotes cs).get? j).map Choice.label = (cs.get? j).map Choice.label := by
  simp [resetVotes, List.get?_map]
  cases cs.get? j <;> rfl

end Voting

namespace Voting

lemma setChoicesLoop_ok (ls : List String) (s s' : VState)
    (h : setChoicesLoop ls s = .ok s') :
    s' = { s with
      choices := s.choices ++ ls.map fun l => { label := l, votes := 0 } } := by
  induction ls generalizing s with
  | nil =>
    simp only [setChoicesLoop] at h
    cases h
    simp
  | cons l rest ih =>
    simp only [setChoicesLoop] at h
    by_cases hl : l.isEmpty
    · simp [hl] at h
    · simp only [hl, if_false] at h
      have := ih _ h
      simp only [this, List.map_cons, List.append_assoc, List.singleton_append]

lemma addOne_fields (v : Nat) (s : VState) :
    (addOne v s).owner = s.owner ∧
    (addOne v s).electionActive = s.electionActive ∧
    (addOne v s).electionStart = s.electionStart ∧
    (addOne v s).electionEnd = s.electionEnd ∧
    (addOne v s).pollTitle = s.pollTitle ∧
    (addOne v s).electionId = s.electionId ∧
    (addOne v s).choices = s.choices ∧
    (addOne v s).lastVotedElection = s.lastVotedElection ∧
    (addOne v s).lastVotedChoice = s.lastVotedChoice ∧
    (addOne v s).lastVotedAt = s.lastVotedAt := by
  unfold addOne
  split <;> simp

lemma addOne_flag (v a : Nat) (s : VState) :
    (addOne v s).isWhitelisted a = (s.isWhitelisted a || a = v) := by
  unfold addOne
  by_cases hv : s.isWhitelisted v
  · by_cases hav : a = v <;> simp [hv, hav]
  · by_cases hav : a = v <;> simp [hv, hav]

lemma setWhitelistLoop_ok (vs : List Nat) (s s' : VState)
    (h : setWhitelistLoop vs s = .ok s') :
    s'.owner = s.owner ∧
    s'.electionActive = s.electionActive ∧
    s'.electionStart = s.electionStart ∧
    s'.electionEnd = s.electionEnd ∧
    s'.pollTitle = s.pollTitle ∧
    s'.electionId = s.electionId ∧
    s'.choices = s.choices ∧
    s'.lastVotedElection = s.lastVotedElection ∧
    s'.lastVotedChoice = s.lastVotedChoice ∧
    s'.lastVotedAt = s.lastVotedAt ∧
    (∀ a, s'.isWhitelisted a = (s.isWhitelisted a || vs.contains a)) := by
  induction vs generalizing s with
  | nil =>
    simp only [setWhitelistLoop] at h
    cases h
    simp
  | cons v rest ih =>
    simp only [setWhitelistLoop] at h
    by_cases hv : v = 0
    · simp [hv] at h
    · simp only [hv, if_false] at h
      obtain ⟨h1, h2, h3, h4, h5, h6, h7, h8, h9, h10, h11⟩ := ih _ h
      obtain ⟨g1, g2, g3, g4, g5, g6, g7, g8, g9, g10⟩ := addOne_fields v s
      refine ⟨h1.trans g1, h2.trans g2, h3.trans g3, h4.trans g4, h5.trans g5,
        h6.trans g6, h7.trans g7, h8.trans g8, h9.trans g9, h10.trans g10, ?_⟩
      intro a
      rw [h11 a, addOne_flag]
      by_cases hav : a = v <;> simp [hav]

end Voting

namespace Voting

lemma addOne_addrs (v : Nat) (s : VState) :
    (addOne v s).whitelistAddresses =
      if s.isWhitelisted v then s.whitelistAddresses
      else s.whitelistAddresses ++ [v] := by
  unfold addOne
  split <;> rfl

lemma clearWhitelist_flag (s : VState)
    (h1 : ∀ a, s.isWhitelisted a = true → a ∈ s.whitelistAddresses) (a : Nat) :
    (clearWhitelist s).isWhitelisted a = false := by
  by_cases hm : a ∈ s.whitelistAddresses
  · simp [clearWhitelist, hm]
  · have hf : s.isWhitelisted a = false := by
      by_cases hw : s.isWhitelisted a
      · exact absurd (h1 a hw) hm
      · simpa using hw
    simp [clearWhitelist, hm, hf]

lemma addOne_memOf (v : Nat) (s : VState)
    (h1 : ∀ a, s.isWhitelisted a = true → a ∈ s.whitelistAddresses) :
    ∀ a, (addOne v s).isWhitelisted a = true →
      a ∈ (addOne v s).whitelistAddresses := by
  intro a ha
  rw [addOne_flag] at ha
  rw [addOne_addrs]
  rcases Bool.or_eq_true_iff.mp ha with hf | hv
  · have := h1 a hf
    split <;> simp [this]
  · have hav : a = v := by simpa using hv
    subst hav
    by_cases hwv : s.isWhitelisted a
    · simp [hwv, h1 a hwv]
    · simp [hwv]

lemma setWhitelistLoop_memOf (vs : List Nat) (s s' : VState)
    (h : setWhitelistLoop vs s = .ok s')
    (h1 : ∀ a, s.isWhitelisted a = true → a ∈ s.whitelistAddresses) :
    ∀ a, s'.isWhitelisted a = true → a ∈ s'.whitelistAddresses := by
  induction vs generalizing s with
  | nil =>
    simp only [setWhitelistLoop] at h
    cases h
    exact h1
  | cons v rest ih =>
    simp only [setWhitelistLoop] at h
    by_cases hv : v = 0
    · simp [hv] at h
    · simp only [hv, if_false] at h
      exact ih _ h (addOne_memOf v s h1)

lemma addOne_sound (v : Nat) (s : VState) (h : WhitelistSound s) :
    WhitelistSound (addOne v s) := by
  obtain ⟨hnd, hfl⟩ := h
  by_cases hwv : s.isWhitelisted v
  · constructor
    · rw [addOne_addrs, if_pos hwv]
      exact hnd
    · intro a ha
      rw [addOne_addrs, if_pos hwv] at ha
      rw [addOne_flag]
      simp [hfl a ha]
  · constructor
    · rw [addOne_addrs, if_neg hwv]
      have hvn : v ∉ s.whitelistAddresses := fun hm => hwv (hfl v hm)
      simp [List.nodup_append, hnd, hvn]
    · intro a ha
      rw [addOne_addrs, if_neg hwv] at ha
      rw [addOne_flag]
      rcases List.mem_append.mp ha with ha2 | ha2
      · simp [hfl a ha2]
      · have : a = v := by simpa using ha2
        simp [this]

lemma setWhitelistLoop_sound (vs : List Nat) (s s' : VState)
    (h : setWhitelistLoop vs s = .ok s') (hs : WhitelistSound s) :
    WhitelistSound s' := by
  induction vs generalizing s with
  | nil =>
    simp only [setWhitelistLoop] at h
    cases h
    exact hs
  | cons v rest ih =>
    simp only [setWhitelistLoop] at h
    by_cases hv : v = 0
    · simp [hv] at h
    · simp only [hv, if_false] at h
      exact ih _ h (addOne_sound v s hs)

lemma clearWhitelist_sound (s : VState) : WhitelistSound (clearWhitelist s) := by
  constructor
  · show List.Nodup []
    simp
  · intro a ha
    simp [clearWhitelist] at ha

end Voting

namespace Voting

lemma setPollTitle_ok {sender : Nat} {title : String} {s s' : VState}
    (h : setPollTitle sender title s = .ok s') :
    sender = s.owner ∧ s.electionActive = false ∧
      s' = { s with pollTitle := title } := by
  unfold setPollTitle at h
  by_cases h1 : sender = s.owner
  · rw [if_pos h1] at h
    by_cases h2 : s.electionActive = true
    · rw [if_pos h2] at h
      cases h
    · rw [if_neg h2] at h
      cases h
      exact ⟨h1, by simpa using h2, rfl⟩
  · rw [if_neg h1] at h
    cases h

lemma setChoices_ok {sender : Nat} {labels : List String} {s s' : VState}
    (h : setChoices sender labels s = .ok s') :
    sender = s.owner ∧ s.electionActive = false ∧ labels.length ≠ 0 ∧
      s' = { s with
        choices := labels.map fun l => { label := l, votes := 0 } } := by
  unfold setChoices at h
  by_cases h1 : sender = s.owner
  · rw [if_pos h1] at h
    by_cases h2 : s.electionActive = true
    · rw [if_pos h2] at h
      cases h
    · rw [if_neg h2] at h
      by_cases h3 : labels.length = 0
      · rw [if_pos h3] at h
        cases h
      · rw [if_neg h3] at h
        refine ⟨h1, by simpa using h2, h3, ?_⟩
        have := setChoicesLoop_ok _ _ _ h
        simpa using this
  · rw [if_neg h1] at h
    cases h

lemma setWhitelist_ok {sender : Nat} {voters : List Nat} {s s' : VState}
    (h : setWhitelist sender voters s = .ok s') :
    sender = s.owner ∧ s.electionActive = false ∧ voters.length ≠ 0 ∧
      setWhitelistLoop voters (clearWhitelist s) = .ok s' := by
  unfold setWhitelist at h
  by_cases h1 : sender = s.owner
  · rw [if_pos h1] at h
    by_cases h2 : s.electionActive = true
    · rw [if_pos h2] at h
      cases h
    · rw [if_neg h2] at h
      by_cases h3 : voters.length = 0
      · rw [if_pos h3] at h
        cases h
      · rw [if_neg h3] at h
        exact ⟨h1, by simpa using h2, h3, h⟩
  · rw [if_neg h1] at h
    cases h

lemma addToWhitelist_ok {sender voter : Nat} {s s' : VState}
    (h : addToWhitelist sender voter s = .ok s') :
    sender = s.owner ∧ s.electionActive = false ∧ voter ≠ 0 ∧
      s' = addOne voter s := by
  unfold addToWhitelist at h
  by_cases h1 : sender = s.owner
  · rw [if_pos h1] at h
    by_cases h2 : s.electionActive = true
    · rw [if_pos h2] at h
      cases h
    · rw [if_neg h2] at h
      by_cases h3 : voter = 0
      · rw [if_pos h3] at h
        cases h
      · rw [if_neg h3] at h
        cases h
        exact ⟨h1, by simpa using h2, h3, rfl⟩
  · rw [if_neg h1] at h
    cases h

lemma removeFromWhitelist_ok {sender voter : Nat} {s s' : VState}
    (h : removeFromWhitelist sender voter s = .ok s') :
    sender = s.owner ∧ s.electionActive = false ∧
      s.isWhitelisted voter = true ∧
      s' = { s with
        isWhitelisted := fun a =>
          if a = voter then false else s.isWhitelisted a } := by
  unfold removeFromWhitelist at h
  by_cases h1 : sender = s.owner
  · rw [if_pos h1] at h
    by_cases h2 : s.electionActive = true
    · rw [if_pos h2] at h
      cases h
    · rw [if_neg h2] at h
      by_cases h3 : s.isWhitelisted voter = true
      · rw [if_pos h3] at h
        cases h
        exact ⟨h1, by simpa using h2, h3, rfl⟩
      · rw [if_neg h3] at h
        cases h
  · rw [if_neg h1] at h
    cases h

lemma startElection_ok {sender ts : Nat} {s s' : VState}
    (h : startElection sender ts s = .ok s') :
    sender = s.owner ∧ s.electionActive = false ∧ s.choices.length ≠ 0 ∧
      activeWhitelistCount s ≠ 0 ∧
      s' = { s with
        choices := resetVotes s.choices
        electionId := s.electionId + 1
        electionActive := true
        electionStart := ts
        electionEnd := 0 } := by
  unfold startElection at h
  by_cases h1 : sender = s.owner
  · rw [if_pos h1] at h
    by_cases h2 : s.electionActive = true
    · rw [if_pos h2] at h
      cases h
    · rw [if_neg h2] at h
      by_cases h3 : s.choices.length = 0
      · rw [if_pos h3] at h
        cases h
      · rw [if_neg h3] at h
        by_cases h4 : activeWhitelistCount s = 0
        · rw [if_pos h4] at h
          cases h
        · rw [if_neg h4] at h
          cases h
          exact ⟨h1, by simpa using h2, h3, h4, rfl⟩
  · rw [if_neg h1] at h
    cases h

lemma endElection_ok {sender ts : Nat} {s s' : VState}
    (h : endElection sender ts s = .ok s') :
    sender = s.owner ∧ s.electionActive = true ∧
      s' = { s with electionActive := false, electionEnd := ts } := by
  unfold endElection at h
  by_cases h1 : sender = s.owner
  · rw [if_pos h1] at h
    by_cases h2 : s.electionActive = true
    · rw [if_pos h2] at h
      cases h
      exact ⟨h1, h2, rfl⟩
    · rw [if_neg h2] at h
      cases h
  · rw [if_neg h1] at h
    cases h

lemma vote_ok {sender ts i : Nat} {s s' : VState}
    (h : vote sender ts i s = .ok s') :
    s.electionActive = true ∧ i < s.choices.length ∧
      s.isWhitelisted sender = true ∧
      s.lastVotedElection sender < s.electionId ∧
      s' = { s with
        lastVotedElection := fun a =>
          if a = sender then s.electionId else s.lastVotedElection a
        lastVotedChoice := fun a =>
          if a = sender then i else s.lastVotedChoice a
        lastVotedAt := fun a =>
          if a = sender then ts else s.lastVotedAt a
        choices := bumpVotes s.choices i } := by
  unfold vote at h
  by_cases h1 : s.electionActive = true
  · rw [if_pos h1] at h
    by_cases h2 : i < s.choices.length
    · rw [if_pos h2] at h
      by_cases h3 : s.isWhitelisted sender = true
      · rw [if_pos h3] at h
        by_cases h4 : s.lastVotedElection sender < s.electionId
        · rw [if_pos h4] at h
          cases h
          exact ⟨h1, h2, h3, h4, rfl⟩
        · rw [if_neg h4] at h
          cases h
      · rw [if_neg h3] at h
        cases h
    · rw [if_neg h2] at h
      cases h
  · rw [if_neg h1] at h
    cases h

end Voting

namespace Voting

lemma inv_initial (d : Nat) : Inv (initialState d) := by
  refine ⟨?_, ?_, ?_⟩
  · intro a ha
    simp [initialState] at ha
  · intro a
    simp [initialState]
  · intro habs
    simp [initialState] at habs

lemma inv_execOp (op : Op) (s : VState) (hs : Inv s) : Inv (execOp op s) := by
  unfold execOp
  cases hop : applyOp op s with
  | error e => exact hs
  | ok s₂ =>
    show Inv s₂
    obtain ⟨hI1, hI2, hI3⟩ := hs
    cases op with
    | setPollTitle sender title =>
      obtain ⟨_, _, rfl⟩ := setPollTitle_ok (by simpa [applyOp] using hop)
      exact ⟨hI1, hI2, hI3⟩
    | setChoices sender labels =>
      obtain ⟨_, _, _, rfl⟩ := setChoices_ok (by simpa [applyOp] using hop)
      exact ⟨hI1, hI2, hI3⟩
    | setWhitelist sender voters =>
      obtain ⟨_, hina, _, hloop⟩ := setWhitelist_ok (by simpa [applyOp] using hop)
      obtain ⟨_, hact, _, _, _, hid, _, hlve, _, _, _⟩ :=
        setWhitelistLoop_ok _ _ _ hloop
      refine ⟨?_, ?_, ?_⟩
      · refine setWhitelistLoop_memOf _ _ _ hloop ?_
        intro a ha
        rw [clearWhitelist_flag s hI1 a] at ha
        cases ha
      · intro a
        rw [hlve, hid]
        exact hI2 a
      · intro habs
        exfalso
        rw [hact] at habs
        have hcw : (clearWhitelist s).electionActive = s.electionActive := rfl
        rw [hcw, hina] at habs
        cases habs
    | addToWhitelist sender voter =>
      obtain ⟨_, hina, _, rfl⟩ := addToWhitelist_ok (by simpa [applyOp] using hop)
      obtain ⟨_, hact, _, _, _, hid, _, hlve, _, _⟩ := addOne_fields voter s
      refine ⟨addOne_memOf voter s hI1, ?_, ?_⟩
      · intro a
        rw [hlve, hid]
        exact hI2 a
      · intro habs
        rw [hact, hina] at habs
        cases habs
    | removeFromWhitelist sender voter =>
      obtain ⟨_, hina, _, rfl⟩ :=
        removeFromWhitelist_ok (by simpa [applyOp] using hop)
      refine ⟨?_, hI2, ?_⟩
      · intro a ha
        show a ∈ s.whitelistAddresses
        by_cases hav : a = voter
        · simp [hav] at ha
        · simp only [if_neg hav] at ha
          exact hI1 a ha
      · intro habs
        rw [hina] at habs
        cases habs
    | startElection sender ts =>
      obtain ⟨_, _, _, _, rfl⟩ := startElection_ok (by simpa [applyOp] using hop)
      refine ⟨hI1, ?_, ?_⟩
      · intro a
        exact Nat.le_succ_of_le (hI2 a)
      · intro _ a ha
        exfalso
        have h2 := hI2 a
        have ha2 : s.lastVotedElection a = s.electionId + 1 := ha
        omega
    | endElection sender ts =>
      obtain ⟨_, _, rfl⟩ := endElection_ok (by simpa [applyOp] using hop)
      refine ⟨hI1, hI2, ?_⟩
      · intro habs
        cases habs
    | vote sender ts i =>
      obtain ⟨hact, _, hwl, _, rfl⟩ := vote_ok (by simpa [applyOp] using hop)
      refine ⟨hI1, ?_, ?_⟩
      · intro a
        show (if a = sender then s.electionId else s.lastVotedElection a)
            ≤ s.electionId
        by_cases hav : a = sender
        · simp [hav]
        · simp only [if_neg hav]
          exact hI2 a
      · intro _ a ha
        show s.isWhitelisted a = true
        by_cases hav : a = sender
        · rw [hav]
          exact hwl
        · simp only [if_neg hav] at ha
          exact hI3 hact a ha

lemma inv_execOps (ops : List Op) (s : VState) (hs : Inv s) :
    Inv (execOps ops s) := by
  induction ops generalizing s with
  | nil => exact hs
  | cons op rest ih =>
    show Inv (execOps rest (execOp op s))
    exact ih _ (inv_execOp op s hs)

lemma inv_reachable (s : VState) (hs : Reachable s) : Inv s := by
  obtain ⟨d, ops, rfl⟩ := hs
  exact inv_execOps ops _ (inv_initial d)

end Voting

namespace Voting

lemma maxVotes_cons (c : Choice) (rest : List Choice) :
    maxVotes (c :: rest) = max c.votes (maxVotes rest) := rfl

lemma winnerLoop_spec (rest : List Choice) : ∀ (i tv tj : Nat) (tie : Bool),
    winnerLoop rest i tv tj tie true =
      ( max tv (maxVotes rest)
      , if tv < maxVotes rest then
          i + rest.findIdx (fun c => c.votes == maxVotes rest)
        else tj
      , if tv < maxVotes rest then
          decide (2 ≤ rest.countP (fun c => c.votes == maxVotes rest))
        else
          (tie || decide (1 ≤ rest.countP (fun c => c.votes == tv)))
      , true ) := by
  induction rest with
  | nil =>
    intro i tv tj tie
    simp [winnerLoop, maxVotes]
  | cons c rest ih =>
    intro i tv tj tie
    by_cases hA : tv < c.votes
    · have hstep : winnerLoop (c :: rest) i tv tj tie true
          = winnerLoop rest (i + 1) c.votes i false true := by
        simp [winnerLoop, hA]
      rw [hstep, ih]
      simp only [maxVotes_cons, Prod.mk.injEq]
      by_cases hcm : c.votes < maxVotes rest
      · have hm2 : max c.votes (maxVotes rest) = maxVotes rest := by omega
        have htv2 : tv < maxVotes rest := by omega
        have hne : (c.votes == maxVotes rest) = false := by
          simp only [beq_eq_false_iff_ne, ne_eq]
          omega
        simp only [hm2, hcm, htv2, if_true, List.findIdx_cons,
          List.countP_cons, hne, cond_false, if_false, Bool.false_or]
        repeat' apply And.intro
        all_goals
          first
          | trivial
          | rfl
          | omega
          | (refine decide_eq_decide.mpr ?_; omega)
          | simp [Nat.le_add_left]
      · have hm2 : max c.votes (maxVotes rest) = c.votes := by omega
        have heq : (c.votes == c.votes) = true := by simp
        simp only [hm2, hcm, hA, if_true, if_false, List.findIdx_cons,
          List.countP_cons, heq, cond_true, Bool.false_or]
        repeat' apply And.intro
        all_goals
          first
          | trivial
          | rfl
          | omega
          | (refine decide_eq_decide.mpr ?_; omega)
          | simp [Nat.le_add_left]
    · by_cases hB : c.votes = tv
      · have hstep : winnerLoop (c :: rest) i tv tj tie true
            = winnerLoop rest (i + 1) tv tj true true := by
          simp [winnerLoop, hA, hB]
        rw [hstep, ih]
        simp only [maxVotes_cons, Prod.mk.injEq]
        by_cases htm : tv < maxVotes rest
        · have hm2 : max c.votes (maxVotes rest) = maxVotes rest := by omega
          have hne : (c.votes == maxVotes rest) = false := by
            simp only [beq_eq_false_iff_ne, ne_eq]
            omega
          simp only [hm2, htm, if_true, List.findIdx_cons,
            List.countP_cons, hne, cond_false, if_false, Bool.false_or]
          repeat' apply And.intro
          all_goals
            first
            | trivial
            | rfl
            | omega
            | (refine decide_eq_decide.mpr ?_; omega)
            | simp [Nat.le_add_left]
        · have hm2 : max c.votes (maxVotes rest) = tv := by omega
          have htv2 : ¬ tv < tv := by omega
          have heqtv : (c.votes == tv) = true := by
            simp only [beq_iff_eq]
            omega
          simp only [hm2, htm, htv2, if_false, List.countP_cons, heqtv,
            if_true, Bool.true_or]
          repeat' apply And.intro
          all_goals
            first
            | trivial
            | rfl
            | omega
            | (refine decide_eq_decide.mpr ?_; omega)
            | simp [Nat.le_add_left]
      · have hstep : winnerLoop (c :: rest) i tv tj tie true
            = winnerLoop rest (i + 1) tv tj tie true := by
          simp [winnerLoop, hA, hB]
        rw [hstep, ih]
        simp only [maxVotes_cons, Prod.mk.injEq]
        by_cases htm : tv < maxVotes rest
        · have hm2 : max c.votes (maxVotes rest) = maxVotes rest := by omega
          have hne : (c.votes == maxVotes rest) = false := by
            simp only [beq_eq_false_iff_ne, ne_eq]
            omega
          simp only [hm2, htm, if_true, List.findIdx_cons,
            List.countP_cons, hne, cond_false, if_false, Bool.false_or]
          repeat' apply And.intro
          all_goals
            first
            | trivial
            | rfl
            | omega
            | (refine decide_eq_decide.mpr ?_; omega)
            | simp [Nat.le_add_left]
        · have hcond : ¬ tv < max c.votes (maxVotes rest) := by omega
          have hnetv : (c.votes == tv) = false := by
            simp only [beq_eq_false_iff_ne, ne_eq]
            omega
          simp only [htm, hcond, if_false, List.countP_cons, hnetv,
            Bool.false_or]
          repeat' apply And.intro
          all_goals
            first
            | trivial
            | rfl
            | omega
            | (refine decide_eq_decide.mpr ?_; omega)
            | simp [Nat.le_add_left]

end Voting

namespace Voting

lemma winnerLoop_run (c : Choice) (rest : List Choice) :
    winnerLoop (c :: rest) 0 0 0 false false =
      ( maxVotes (c :: rest)
      , (c :: rest).findIdx fun x => x.votes == maxVotes (c :: rest)
      , decide (2 ≤ (c :: rest).countP fun x => x.votes == maxVotes (c :: rest))
      , true ) := by
  have hstep : winnerLoop (c :: rest) 0 0 0 false false
      = winnerLoop rest 1 c.votes 0 false true := by
    simp [winnerLoop]
  rw [hstep, winnerLoop_spec]
  simp only [maxVotes_cons, Prod.mk.injEq]
  by_cases hcm : c.votes < maxVotes rest
  · have hm2 : max c.votes (maxVotes rest) = maxVotes rest := by omega
    have hne : (c.votes == maxVotes rest) = false := by
      simp only [beq_eq_false_iff_ne, ne_eq]
      omega
    simp only [hm2, hcm, if_true, List.findIdx_cons, List.countP_cons, hne,
      cond_false, Bool.false_or]
    repeat' apply And.intro
    all_goals
      first
      | trivial
      | rfl
      | omega
      | (refine decide_eq_decide.mpr ?_; omega)
      | simp [Nat.le_add_left]
  · have hm2 : max c.votes (maxVotes rest) = c.votes := by omega
    have heq : (c.votes == c.votes) = true := by simp
    simp only [hm2, hcm, if_false, List.findIdx_cons, List.countP_cons, heq,
      cond_true, Bool.false_or]
    repeat' apply And.intro
    all_goals
      first
      | trivial
      | rfl
      | omega
      | (refine decide_eq_decide.mpr ?_; omega)
      | simp [Nat.le_add_left]

lemma maxVotes_mem (c : Choice) (rest : List Choice) :
    ∃ x ∈ c :: rest, x.votes = maxVotes (c :: rest) := by
  induction rest generalizing c with
  | nil =>
    refine ⟨c, by simp, ?_⟩
    simp only [maxVotes]
    omega
  | cons d rest ih =>
    obtain ⟨x, hx, hvx⟩ := ih d
    by_cases h : maxVotes (d :: rest) ≤ c.votes
    · refine ⟨c, by simp, ?_⟩
      rw [maxVotes_cons]
      omega
    · refine ⟨x, ?_, ?_⟩
      · simp only [List.mem_cons] at hx ⊢
        tauto
      · rw [maxVotes_cons]
        omega

lemma getWinner_eq_empty (s : VState) (h : s.choices = []) :
    getWinner s =
      { winnerIndex := 0, label := "", votes := 0,
        hasTie := false, hasWinner := false } := by
  unfold getWinner
  rw [h]
  rfl

lemma getWinner_eq_cons (s : VState) (c : Choice) (rest : List Choice)
    (h : s.choices = c :: rest) :
    getWinner s =
      { winnerIndex := s.choices.findIdx fun x => x.votes == maxVotes s.choices
        label := (s.choices.getD
          (s.choices.findIdx fun x => x.votes == maxVotes s.choices)
          { label := "", votes := 0 }).label
        votes := maxVotes s.choices
        hasTie :=
          decide (2 ≤ s.choices.countP fun x => x.votes == maxVotes s.choices)
        hasWinner := true } := by
  unfold getWinner
  rw [h, winnerLoop_run]
  rfl

end Voting

namespace Voting

lemma setChoicesLoop_blank (ls : List String) (hb : "" ∈ ls) (s : VState) :
    ∃ e, setChoicesLoop ls s = .error e := by
  induction ls generalizing s with
  | nil => simp at hb
  | cons l rest ih =>
    simp only [setChoicesLoop]
    by_cases hl : l.isEmpty
    · exact ⟨"Empty choice", by rw [if_pos hl]⟩
    · rw [if_neg hl]
      apply ih
      rcases List.mem_cons.mp hb with h | h
      · exfalso
        apply hl
        rw [← h]
        rfl
      · exact h

lemma setWhitelistLoop_zero (vs : List Nat) (hz : 0 ∈ vs) (s : VState) :
    ∃ e, setWhitelistLoop vs s = .error e := by
  induction vs generalizing s with
  | nil => simp at hz
  | cons v rest ih =>
    simp only [setWhitelistLoop]
    by_cases hv : v = 0
    · exact ⟨"Invalid voter", by rw [if_pos hv]⟩
    · rw [if_neg hv]
      apply ih
      rcases List.mem_cons.mp hz with h | h
      · exact absurd h.symm hv
      · exact h

end Voting

namespace Voting

/-- C1: vote(choice_index) commits if and only if its four preconditions
hold, checked in this exact order with the first failure winning (election
active, else InvalidState "Election not active"; choice_index <
choiceCount(), else InvalidChoice "Invalid choice"; caller whitelisted,
else NotWhitelisted "Not whitelisted"; caller's last_voted_epoch <
current_epoch, else AlreadyVoted "Already voted"), no partial effect on any
failure (the reverted call commits the unchanged pre-state), and on success
it atomically sets the caller's last_voted_epoch to the current epoch,
stores the chosen index and timestamp, and increments exactly that choice's
vote_count by exactly 1, leaving every other piece of state unchanged. -/
theorem vote_meets_spec (sender ts i : Nat) (s : VState) :
    (s.electionActive = false →
      vote sender ts i s = .error "Election not active") ∧
    (s.electionActive = true → ¬ i < choiceCount s →
      vote sender ts i s = .error "Invalid choice") ∧
    (s.electionActive = true → i < choiceCount s →
      s.isWhitelisted sender = false →
      vote sender ts i s = .error "Not whitelisted") ∧
    (s.electionActive = true → i < choiceCount s →
      s.isWhitelisted sender = true →
      ¬ s.lastVotedElection sender < s.electionId →
      vote sender ts i s = .error "Already voted") ∧
    (∀ e, vote sender ts i s = .error e →
      commit s (vote sender ts i s) = s) ∧
    (s.electionActive = true → i < choiceCount s →
      s.isWhitelisted sender = true →
      s.lastVotedElection sender < s.electionId →
      ∃ s₂, vote sender ts i s = .ok s₂ ∧
        s₂.lastVotedElection sender = s.electionId ∧
        s₂.lastVotedChoice sender = i ∧
        s₂.lastVotedAt sender = ts ∧
        (∀ a, a ≠ sender →
          s₂.lastVotedElection a = s.lastVotedElection a ∧
          s₂.lastVotedChoice a = s.lastVotedChoice a ∧
          s₂.lastVotedAt a = s.lastVotedAt a) ∧
        s₂.choices.length = s.choices.length ∧
        (s₂.choices.get? i).map Choice.votes
          = (s.choices.get? i).map (fun c => c.votes + 1) ∧
        (s₂.choices.get? i).map Choice.label
          = (s.choices.get? i).map Choice.label ∧
        (∀ j, j ≠ i → s₂.choices.get? j = s.choices.get? j) ∧
        s₂.electionActive = s.electionActive ∧
        s₂.electionId = s.electionId ∧
        s₂.electionStart = s.electionStart ∧
        s₂.electionEnd = s.electionEnd ∧
        s₂.pollTitle = s.pollTitle ∧
        s₂.owner = s.owner ∧
        s₂.whitelistAddresses = s.whitelistAddresses ∧
        s₂.isWhitelisted = s.isWhitelisted) := by
  refine ⟨?_, ?_, ?_, ?_, ?_, ?_⟩
  · intro h1
    unfold vote
    rw [if_neg (by simp [h1])]
  · intro h1 h2
    have h2a : ¬ i < s.choices.length := h2
    unfold vote
    rw [if_pos h1, if_neg h2a]
  · intro h1 h2 h3
    have h2a : i < s.choices.length := h2
    unfold vote
    rw [if_pos h1, if_pos h2a, if_neg (by simp [h3])]
  · intro h1 h2 h3 h4
    have h2a : i < s.choices.length := h2
    unfold vote
    rw [if_pos h1, if_pos h2a, if_pos h3, if_neg h4]
  · intro e he
    rw [he]
    rfl
  · intro h1 h2 h3 h4
    have h2a : i < s.choices.length := h2
    refine ⟨{ s with
        lastVotedElection := fun a =>
          if a = sender then s.electionId else s.lastVotedElection a
        lastVotedChoice := fun a =>
          if a = sender then i else s.lastVotedChoice a
        lastVotedAt := fun a =>
          if a = sender then ts else s.lastVotedAt a
        choices := bumpVotes s.choices i },
      ?_, ?_, ?_, ?_, ?_, ?_, ?_, ?_, ?_, rfl, rfl, rfl, rfl, rfl,
      rfl, rfl, rfl⟩
    · unfold vote
      rw [if_pos h1, if_pos h2a, if_pos h3, if_pos h4]
    · simp
    · simp
    · simp
    · intro a ha
      exact ⟨by simp [ha], by simp [ha], by simp [ha]⟩
    · exact bumpVotes_length s.choices i
    · rw [bumpVotes_get?_self]
      cases s.choices.get? i <;> rfl
    · rw [bumpVotes_get?_self]
      cases s.choices.get? i <;> rfl
    · intro j hj
      exact bumpVotes_get?_ne s.choices i j hj

/-- Witness for C1: in the concrete active state sActive, address 1 voting
for choice 0 satisfies all four preconditions and commits, recording
election 1 as its last-voted election. -/
theorem vote_meets_spec_witness :
    sActive.electionActive = true ∧ 0 < choiceCount sActive ∧
    sActive.isWhitelisted 1 = true ∧
    sActive.lastVotedElection 1 < sActive.electionId ∧
    (commit sActive (vote 1 150 0 sActive)).lastVotedElection 1
      = sActive.electionId := by
  refine ⟨rfl, by decide, by decide, by decide, ?_⟩
  obtain ⟨s₂, hok, hlve, _⟩ :=
    (vote_meets_spec 1 150 0 sActive).2.2.2.2.2 rfl (by decide) (by decide)
      (by decide)
  rw [hok]
  exact hlve

end Voting

namespace Voting

/-- C2 counterexample: in the reachable state sVoted (address 1 has voted
in the current election 1, election still active), a further vote by
address 1 with choice index 5 fails with "Invalid choice", not
"Already voted" - so the claim that any further vote(i) fails AlreadyVoted
for every choice index i is false. -/
theorem second_vote_cex :
    sVoted.electionActive = true ∧
    sVoted.lastVotedElection 1 = sVoted.electionId ∧
    errOf (vote 1 160 5 sVoted) = some "Invalid choice" ∧
    ¬ errOf (vote 1 160 5 sVoted) = some "Already voted" := by
  refine ⟨by decide, by decide, by decide, by decide⟩

/-- C2 (amended): for every identity and every reachable state in which the
election is active and the identity's last_voted_epoch equals the current
epoch, any further vote call with a valid choice index (i < choiceCount)
fails with AlreadyVoted, and the state is unchanged. -/
theorem second_vote_rejected (s : VState) (hr : Reachable s) (v ts i : Nat)
    (hact : s.electionActive = true) (hi : i < choiceCount s)
    (hv : s.lastVotedElection v = s.electionId) :
    vote v ts i s = .error "Already voted" ∧ execOp (.vote v ts i) s = s := by
  have hinv := inv_reachable s hr
  have hwl : s.isWhitelisted v = true := hinv.2.2 hact v hv
  have hi2 : i < s.choices.length := hi
  have h4 : ¬ s.lastVotedElection v < s.electionId := by omega
  have herr : vote v ts i s = .error "Already voted" := by
    unfold vote
    rw [if_pos hact, if_pos hi2, if_pos hwl, if_neg h4]
  refine ⟨herr, ?_⟩
  show commit s (applyOp (.vote v ts i) s) = s
  have happ : applyOp (.vote v ts i) s = vote v ts i s := rfl
  rw [happ, herr]
  rfl

/-- Witness for the amended C2: in the reachable state sVoted, a second
vote by address 1 for the valid choice index 0 is rejected with
"Already voted". -/
theorem second_vote_rejected_witness :
    sVoted.electionActive = true ∧ 0 < choiceCount sVoted ∧
    sVoted.lastVotedElection 1 = sVoted.electionId ∧
    errOf (vote 1 200 0 sVoted) = some "Already voted" := by
  obtain ⟨he, _⟩ := second_vote_rejected sVoted ⟨7, voteOps, rfl⟩ 1 200 0
    (by decide) (by decide) (by decide)
  refine ⟨by decide, by decide, by decide, ?_⟩
  rw [he]
  rfl

end Voting

namespace Voting

/-- C3: startElection transitions Configuring to Active with preconditions
checked in order (given an owner caller): not already active, else
InvalidState "Election already active"; choice count > 0, else NoChoices
"No choices"; at least one currently-whitelisted identity, else NoVoters
"No voters". On success it zeroes every choice's vote_count (labels
preserved), increments the epoch by exactly 1, records the start timestamp
from the environment, clears the end timestamp, and changes nothing else;
on any precondition failure the committed state (epoch included) is
exactly the pre-call state. -/
theorem startElection_meets_spec (sender ts : Nat) (s : VState)
    (hown : sender = s.owner) :
    (s.electionActive = true →
      startElection sender ts s = .error "Election already active" ∧
      execOp (.startElection sender ts) s = s) ∧
    (s.electionActive = false → s.choices.length = 0 →
      startElection sender ts s = .error "No choices" ∧
      execOp (.startElection sender ts) s = s) ∧
    (s.electionActive = false → s.choices.length ≠ 0 →
      activeWhitelistCount s = 0 →
      startElection sender ts s = .error "No voters" ∧
      execOp (.startElection sender ts) s = s) ∧
    (∀ e, startElection sender ts s = .error e →
      execOp (.startElection sender ts) s = s) ∧
    (s.electionActive = false → s.choices.length ≠ 0 →
      activeWhitelistCount s ≠ 0 →
      ∃ s₂, startElection sender ts s = .ok s₂ ∧
        s₂.electionActive = true ∧
        s₂.electionId = s.electionId + 1 ∧
        s₂.electionStart = ts ∧
        s₂.electionEnd = 0 ∧
        s₂.choices.length = s.choices.length ∧
        (∀ c ∈ s₂.choices, c.votes = 0) ∧
        (∀ j, (s₂.choices.get? j).map Choice.label
          = (s.choices.get? j).map Choice.label) ∧
        s₂.whitelistAddresses = s.whitelistAddresses ∧
        s₂.isWhitelisted = s.isWhitelisted ∧
        s₂.pollTitle = s.pollTitle ∧
        s₂.owner = s.owner ∧
        s₂.lastVotedElection = s.lastVotedElection ∧
        s₂.lastVotedChoice = s.lastVotedChoice ∧
        s₂.lastVotedAt = s.lastVotedAt) := by
  have hexec : ∀ e, startElection sender ts s = .error e →
      execOp (.startElection sender ts) s = s := by
    intro e he
    show commit s (applyOp (.startElection sender ts) s) = s
    have happ : applyOp (.startElection sender ts) s
        = startElection sender ts s := rfl
    rw [happ, he]
    rfl
  refine ⟨?_, ?_, ?_, hexec, ?_⟩
  · intro h1
    have herr : startElection sender ts s = .error "Election already active" := by
      unfold startElection
      rw [if_pos hown, if_pos h1]
    exact ⟨herr, hexec _ herr⟩
  · intro h1 h2
    have herr : startElection sender ts s = .error "No choices" := by
      unfold startElection
      rw [if_pos hown, if_neg (by simp [h1]), if_pos h2]
    exact ⟨herr, hexec _ herr⟩
  · intro h1 h2 h3
    have herr : startElection sender ts s = .error "No voters" := by
      unfold startElection
      rw [if_pos hown, if_neg (by simp [h1]), if_neg h2, if_pos h3]
    exact ⟨herr, hexec _ herr⟩
  · intro h1 h2 h3
    refine ⟨{ s with
        choices := resetVotes s.choices
        electionId := s.electionId + 1
        electionActive := true
        electionStart := ts
        electionEnd := 0 },
      ?_, rfl, rfl, rfl, rfl, ?_, ?_, ?_, rfl, rfl, rfl, rfl, rfl, rfl, rfl⟩
    · unfold startElection
      rw [if_pos hown, if_neg (by simp [h1]), if_neg h2, if_neg h3]
    · exact resetVotes_length s.choices
    · exact resetVotes_votes s.choices
    · intro j
      exact resetVotes_get?_label s.choices j

/-- Witness for C3: starting the election from the configured inactive
state sConfig succeeds and bumps the epoch from 0 to 1. -/
theorem startElection_meets_spec_witness :
    sConfig.electionActive = false ∧ choiceCount sConfig ≠ 0 ∧
    activeWhitelistCount sConfig ≠ 0 ∧
    (commit sConfig (startElection 7 100 sConfig)).electionId
      = sConfig.electionId + 1 := by
  obtain ⟨s₂, hok, _, hid, _⟩ :=
    (startElection_meets_spec 7 100 sConfig (by decide)).2.2.2.2
      (by decide) (by decide) (by decide)
  refine ⟨by decide, by decide, by decide, ?_⟩
  rw [hok]
  exact hid

end Voting

namespace Voting

/-- C9: endElection requires the election to be active (else InvalidState
"Election already ended"), and on success deactivates the election and
records the end timestamp while leaving every other piece of state
unchanged - epoch, choices (labels and vote counts), whitelist, and all
voter records included. -/
theorem endElection_meets_spec (sender ts : Nat) (s : VState)
    (hown : sender = s.owner) :
    (s.electionActive = false →
      endElection sender ts s = .error "Election already ended" ∧
      execOp (.endElection sender ts) s = s) ∧
    (s.electionActive = true →
      ∃ s₂, endElection sender ts s = .ok s₂ ∧
        s₂.electionActive = false ∧ s₂.electionEnd = ts ∧
        s₂.electionId = s.electionId ∧ s₂.choices = s.choices ∧
        s₂.whitelistAddresses = s.whitelistAddresses ∧
        s₂.isWhitelisted = s.isWhitelisted ∧
        s₂.lastVotedElection = s.lastVotedElection ∧
        s₂.lastVotedChoice = s.lastVotedChoice ∧
        s₂.lastVotedAt = s.lastVotedAt ∧
        s₂.pollTitle = s.pollTitle ∧
        s₂.electionStart = s.electionStart ∧
        s₂.owner = s.owner) := by
  refine ⟨?_, ?_⟩
  · intro h1
    have herr : endElection sender ts s = .error "Election already ended" := by
      unfold endElection
      rw [if_pos hown, if_neg (by simp [h1])]
    refine ⟨herr, ?_⟩
    show commit s (applyOp (.endElection sender ts) s) = s
    have happ : applyOp (.endElection sender ts) s
        = endElection sender ts s := rfl
    rw [happ, herr]
    rfl
  · intro h1
    refine ⟨{ s with electionActive := false, electionEnd := ts },
      ?_, rfl, rfl, rfl, rfl, rfl, rfl, rfl, rfl, rfl, rfl, rfl, rfl⟩
    unfold endElection
    rw [if_pos hown, if_pos h1]

/-- Witness for C9: ending the running election in sActive succeeds,
records end time 200, and leaves the epoch at 1. -/
theorem endElection_meets_spec_witness :
    sActive.electionActive = true ∧
    (commit sActive (endElection 7 200 sActive)).electionEnd = 200 ∧
    (commit sActive (endElection 7 200 sActive)).electionId
      = sActive.electionId := by
  obtain ⟨s₂, hok, _, hend, hid, _⟩ :=
    (endElection_meets_spec 7 200 sActive (by decide)).2 rfl
  refine ⟨rfl, ?_, ?_⟩
  · rw [hok]
    exact hend
  · rw [hok]
    exact hid

/-- C10: for a currently whitelisted identity, removeFromWhitelist (called
by the owner while inactive) flips only that identity's membership flag to
false: the enumeration sequence is unchanged, whitelistCount is unchanged,
whitelistEntry at any index holding that identity still returns it with
currently_active = false, every other identity's flag is unchanged, and
the identity's recorded last-voted data is untouched. -/
theorem removeFromWhitelist_frame (sender v : Nat) (s : VState)
    (hown : sender = s.owner) (hina : s.electionActive = false)
    (hw : s.isWhitelisted v = true) :
    ∃ s₂, removeFromWhitelist sender v s = .ok s₂ ∧
      s₂.whitelistAddresses = s.whitelistAddresses ∧
      whitelistCount s₂ = whitelistCount s ∧
      s₂.isWhitelisted v = false ∧
      (∀ a, a ≠ v → s₂.isWhitelisted a = s.isWhitelisted a) ∧
      (∀ j, s.whitelistAddresses.get? j = some v →
        whitelistEntry s₂ j = .ok (v, false)) ∧
      s₂.lastVotedElection = s.lastVotedElection ∧
      s₂.lastVotedChoice = s.lastVotedChoice ∧
      s₂.lastVotedAt = s.lastVotedAt ∧
      s₂.electionActive = s.electionActive ∧ s₂.electionId = s.electionId ∧
      s₂.choices = s.choices ∧ s₂.pollTitle = s.pollTitle ∧
      s₂.electionStart = s.electionStart ∧ s₂.electionEnd = s.electionEnd ∧
      s₂.owner = s.owner := by
  refine ⟨{ s with
      isWhitelisted := fun a => if a = v then false else s.isWhitelisted a },
    ?_, rfl, rfl, by simp, ?_, ?_, rfl, rfl, rfl, rfl, rfl, rfl, rfl, rfl,
    rfl, rfl⟩
  · unfold removeFromWhitelist
    rw [if_pos hown, if_neg (by simp [hina]), if_pos hw]
  · intro a ha
    simp [ha]
  · intro j hj
    unfold whitelistEntry
    simp only [hj]
    simp

/-- Witness for C10: removing address 2 from the whitelist of the inactive
configured state sConfig keeps the enumeration count at 2 while flipping
only address 2's flag to false. -/
theorem removeFromWhitelist_frame_witness :
    sConfig.electionActive = false ∧ sConfig.isWhitelisted 2 = true ∧
    whitelistCount (commit sConfig (removeFromWhitelist 7 2 sConfig))
      = whitelistCount sConfig ∧
    (commit sConfig (removeFromWhitelist 7 2 sConfig)).isWhitelisted 2
      = false ∧
    (commit sConfig (removeFromWhitelist 7 2 sConfig)).isWhitelisted 1
      = true := by
  obtain ⟨s₂, hok, _, hcount, hflag, hother, _⟩ :=
    removeFromWhitelist_frame 7 2 sConfig (by decide) (by decide) (by decide)
  refine ⟨by decide, by decide, ?_, ?_, ?_⟩
  · rw [hok]
    exact hcount
  · rw [hok]
    exact hflag
  · rw [hok]
    show s₂.isWhitelisted 1 = true
    rw [hother 1 (by decide)]
    decide

end Voting

namespace Voting

/-- C5: for every identity v and epochs e1 < e2, a vote recorded by v at
epoch e1 neither counts toward the tally at epoch e2 (every vote_count is
zeroed by the start that opens e2) nor blocks v from voting at e2 (with
last_voted_epoch = e1 < e2 = current epoch, vote never fails AlreadyVoted,
and under the remaining preconditions it succeeds); past-epoch voter
records are retained by startElection and endElection, never deleted. -/
theorem past_epoch_isolation (v e1 e2 : Nat) (h12 : e1 < e2) :
    (∀ sender ts s s₂, startElection sender ts s = .ok s₂ →
      ∀ c ∈ s₂.choices, c.votes = 0) ∧
    (∀ ts i s, s.electionId = e2 → s.lastVotedElection v = e1 →
      vote v ts i s ≠ .error "Already voted") ∧
    (∀ ts i s, s.electionId = e2 → s.lastVotedElection v = e1 →
      s.electionActive = true → i < choiceCount s →
      s.isWhitelisted v = true → ∃ s₂, vote v ts i s = .ok s₂) ∧
    (∀ sender ts s s₂, startElection sender ts s = .ok s₂ →
      s₂.lastVotedElection = s.lastVotedElection ∧
      s₂.lastVotedChoice = s.lastVotedChoice ∧
      s₂.lastVotedAt = s.lastVotedAt) ∧
    (∀ sender ts s s₂, endElection sender ts s = .ok s₂ →
      s₂.lastVotedElection = s.lastVotedElection ∧
      s₂.lastVotedChoice = s.lastVotedChoice ∧
      s₂.lastVotedAt = s.lastVotedAt) := by
  refine ⟨?_, ?_, ?_, ?_, ?_⟩
  · intro sender ts s s₂ h
    obtain ⟨_, _, _, _, rfl⟩ := startElection_ok h
    exact resetVotes_votes s.choices
  · intro ts i s hid hlv
    have h4 : s.lastVotedElection v < s.electionId := by omega
    unfold vote
    by_cases h1 : s.electionActive = true
    · rw [if_pos h1]
      by_cases h2 : i < s.choices.length
      · rw [if_pos h2]
        by_cases h3 : s.isWhitelisted v = true
        · rw [if_pos h3, if_pos h4]
          intro hcon
          cases hcon
        · rw [if_neg h3]
          intro hcon
          simp only [Except.error.injEq] at hcon
          exact absurd hcon (by decide)
      · rw [if_neg h2]
        intro hcon
        simp only [Except.error.injEq] at hcon
        exact absurd hcon (by decide)
    · rw [if_neg h1]
      intro hcon
      simp only [Except.error.injEq] at hcon
      exact absurd hcon (by decide)
  · intro ts i s hid hlv hact hi hwl
    have h4 : s.lastVotedElection v < s.electionId := by omega
    have hi2 : i < s.choices.length := hi
    unfold vote
    rw [if_pos hact, if_pos hi2, if_pos hwl, if_pos h4]
    exact ⟨_, rfl⟩
  · intro sender ts s s₂ h
    obtain ⟨_, _, _, _, rfl⟩ := startElection_ok h
    exact ⟨rfl, rfl, rfl⟩
  · intro sender ts s s₂ h
    obtain ⟨_, _, rfl⟩ := endElection_ok h
    exact ⟨rfl, rfl, rfl⟩

/-- Witness for C5: in sActive the current epoch is 1, address 1 last
voted at epoch 0 < 1, and its vote succeeds (no error). -/
theorem past_epoch_isolation_witness :
    (0 : Nat) < 1 ∧ sActive.electionId = 1 ∧
    sActive.lastVotedElection 1 = 0 ∧
    errOf (vote 1 150 0 sActive) = none := by
  obtain ⟨s₂, hok⟩ := (past_epoch_isolation 1 0 1 (by decide)).2.2.1 150 0
    sActive (by decide) (by decide) rfl (by decide) (by decide)
  refine ⟨by decide, by decide, by decide, ?_⟩
  rw [hok]
  rfl

/-- C7: every mutating operation either fully commits or rejects with the
committed state exactly as before the call (EVM revert semantics); in
particular setChoices with a blank label anywhere in the list and
setWhitelist with a zero identity anywhere in the list always reject, so
the previous choices and whitelist survive intact. -/
theorem atomic_ops (s : VState) :
    (∀ op, (∃ s₂, applyOp op s = .ok s₂) ∨
      (∃ e, applyOp op s = .error e ∧ execOp op s = s)) ∧
    (∀ sender labels, "" ∈ labels →
      ∃ e, setChoices sender labels s = .error e) ∧
    (∀ sender voters, 0 ∈ voters →
      ∃ e, setWhitelist sender voters s = .error e) ∧
    (∀ sender labels e, setChoices sender labels s = .error e →
      execOp (.setChoices sender labels) s = s) ∧
    (∀ sender voters e, setWhitelist sender voters s = .error e →
      execOp (.setWhitelist sender voters) s = s) := by
  refine ⟨?_, ?_, ?_, ?_, ?_⟩
  · intro op
    cases hop : applyOp op s with
    | ok s₂ => exact Or.inl ⟨s₂, rfl⟩
    | error e =>
      refine Or.inr ⟨e, rfl, ?_⟩
      show commit s (applyOp op s) = s
      rw [hop]
      rfl
  · intro sender labels hb
    unfold setChoices
    by_cases h1 : sender = s.owner
    · rw [if_pos h1]
      by_cases h2 : s.electionActive = true
      · rw [if_pos h2]
        exact ⟨_, rfl⟩
      · rw [if_neg h2]
        by_cases h3 : labels.length = 0
        · rw [if_pos h3]
          exact ⟨_, rfl⟩
        · rw [if_neg h3]
          exact setChoicesLoop_blank labels hb _
    · rw [if_neg h1]
      exact ⟨_, rfl⟩
  · intro sender voters hz
    unfold setWhitelist
    by_cases h1 : sender = s.owner
    · rw [if_pos h1]
      by_cases h2 : s.electionActive = true
      · rw [if_pos h2]
        exact ⟨_, rfl⟩
      · rw [if_neg h2]
        by_cases h3 : voters.length = 0
        · rw [if_pos h3]
          exact ⟨_, rfl⟩
        · rw [if_neg h3]
          exact setWhitelistLoop_zero voters hz _
    · rw [if_neg h1]
      exact ⟨_, rfl⟩
  · intro sender labels e he
    show commit s (applyOp (.setChoices sender labels) s) = s
    have happ : applyOp (.setChoices sender labels) s
        = setChoices sender labels s := rfl
    rw [happ, he]
    rfl
  · intro sender voters e he
    show commit s (applyOp (.setWhitelist sender voters) s) = s
    have happ : applyOp (.setWhitelist sender voters) s
        = setWhitelist sender voters s := rfl
    rw [happ, he]
    rfl

/-- Witness for C7: a setChoices call with a blank label in second
position, and a setWhitelist call with a zero identity in second position,
both leave the freshly deployed state exactly unchanged. -/
theorem atomic_ops_witness :
    ("" ∈ (["A", ""] : List String)) ∧ ((0 : Nat) ∈ ([1, 0] : List Nat)) ∧
    execOp (.setChoices 7 ["A", ""]) (initialState 7) = initialState 7 ∧
    execOp (.setWhitelist 7 [1, 0]) (initialState 7) = initialState 7 := by
  refine ⟨by decide, by decide, ?_, ?_⟩
  · exact (atomic_ops (initialState 7)).2.2.2.1 7 ["A", ""] "Empty choice" rfl
  · exact (atomic_ops (initialState 7)).2.2.2.2 7 [1, 0] "Invalid voter" rfl

end Voting

namespace Voting

/-- C8: setChoices and setWhitelist are wholesale replacements: a
successful setChoices leaves the choice list exactly the labels of that
call, each with vote_count 0, and a successful setWhitelist (from any
reachable state) leaves exactly that call's identities flagged - nothing
from earlier calls is merged in, so after any sequence of successful calls
only the last call's contents survive. -/
theorem wholesale_replace (s : VState) (hr : Reachable s) :
    (∀ sender labels s₂, setChoices sender labels s = .ok s₂ →
      s₂.choices = labels.map fun l => { label := l, votes := 0 }) ∧
    (∀ sender voters s₂, setWhitelist sender voters s = .ok s₂ →
      ∀ a, s₂.isWhitelisted a = voters.contains a) := by
  have hinv := inv_reachable s hr
  refine ⟨?_, ?_⟩
  · intro sender labels s₂ h
    obtain ⟨_, _, _, rfl⟩ := setChoices_ok h
    rfl
  · intro sender voters s₂ h
    obtain ⟨_, _, _, hloop⟩ := setWhitelist_ok h
    obtain ⟨_, _, _, _, _, _, _, _, _, _, hflags⟩ :=
      setWhitelistLoop_ok _ _ _ hloop
    intro a
    rw [hflags a, clearWhitelist_flag s hinv.1 a]
    simp

/-- Witness for C8: replacing the two configured choices of sConfig with
the single label "X" leaves exactly one choice, and replacing its
whitelist with address 3 leaves exactly address 3 flagged (addresses 1 and
2 from the earlier call are gone). -/
theorem wholesale_replace_witness :
    (commit sConfig (setChoices 7 ["X"] sConfig)).choices
      = [{ label := "X", votes := 0 }] ∧
    (commit sConfig (setWhitelist 7 [3] sConfig)).isWhitelisted 3 = true ∧
    (commit sConfig (setWhitelist 7 [3] sConfig)).isWhitelisted 1 = false := by
  have hrc : Reachable sConfig :=
    ⟨7, [.setChoices 7 ["A", "B"], .setWhitelist 7 [1, 2]], rfl⟩
  have hok1 : setChoices 7 ["X"] sConfig
      = .ok (commit sConfig (setChoices 7 ["X"] sConfig)) := rfl
  have hok2 : setWhitelist 7 [3] sConfig
      = .ok (commit sConfig (setWhitelist 7 [3] sConfig)) := rfl
  refine ⟨?_, ?_, ?_⟩
  · exact (wholesale_replace sConfig hrc).1 7 ["X"] _ hok1
  · rw [(wholesale_replace sConfig hrc).2 7 [3] _ hok2 3]
    decide
  · rw [(wholesale_replace sConfig hrc).2 7 [3] _ hok2 1]
    decide

/-- C6 counterexample: from a fresh deployment, addToWhitelist(1),
removeFromWhitelist(1), addToWhitelist(1) leaves address 1 appearing twice
in the enumeration sequence - re-adding after removal duplicates the
entry, so it does not appear exactly once and the sequence has a
duplicate. -/
theorem whitelist_dup_cex :
    sDup.whitelistAddresses.count 1 = 2 ∧
    ¬ sDup.whitelistAddresses.count 1 = 1 ∧
    ¬ sDup.whitelistAddresses.Nodup := by
  refine ⟨by decide, by decide, by decide⟩

/-- C6 (amended): setWhitelist always rebuilds a duplicate-free
enumeration sequence, even from duplicated input; addToWhitelist preserves
duplicate-freedom as long as every tracked identity is currently flagged
(i.e. no identity was removed and left in the sequence), and re-adding a
currently flagged identity leaves the sequence unchanged; but re-adding an
identity whose flag is false appends a fresh entry - so an identity
removed by removeFromWhitelist and then re-added appears twice, and the
original claim holds only in the absence of remove-then-re-add cycles. -/
theorem whitelist_nodup_amended :
    (∀ sender voters s s₂, setWhitelist sender voters s = .ok s₂ →
      s₂.whitelistAddresses.Nodup) ∧
    (∀ sender voter s s₂, WhitelistSound s →
      addToWhitelist sender voter s = .ok s₂ → WhitelistSound s₂) ∧
    (∀ sender voter s s₂, s.isWhitelisted voter = true →
      addToWhitelist sender voter s = .ok s₂ →
      s₂.whitelistAddresses = s.whitelistAddresses) ∧
    (∀ sender voter s s₂, s.isWhitelisted voter = false →
      addToWhitelist sender voter s = .ok s₂ →
      s₂.whitelistAddresses = s.whitelistAddresses ++ [voter]) := by
  refine ⟨?_, ?_, ?_, ?_⟩
  · intro sender voters s s₂ h
    obtain ⟨_, _, _, hloop⟩ := setWhitelist_ok h
    exact (setWhitelistLoop_sound _ _ _ hloop (clearWhitelist_sound s)).1
  · intro sender voter s s₂ hs h
    obtain ⟨_, _, _, rfl⟩ := addToWhitelist_ok h
    exact addOne_sound voter s hs
  · intro sender voter s s₂ hw h
    obtain ⟨_, _, _, rfl⟩ := addToWhitelist_ok h
    rw [addOne_addrs, if_pos hw]
  · intro sender voter s s₂ hw h
    obtain ⟨_, _, _, rfl⟩ := addToWhitelist_ok h
    rw [addOne_addrs, if_neg (by simp [hw])]

/-- Witness for the amended C6: a single setWhitelist with the duplicated
input [1, 2, 1] yields the duplicate-free enumeration sequence [1, 2]. -/
theorem whitelist_nodup_amended_witness :
    sAfterSet.whitelistAddresses = [1, 2] ∧
    sAfterSet.whitelistAddresses.Nodup := by
  have hok : setWhitelist 7 [1, 2, 1] (initialState 7) = .ok sAfterSet := rfl
  exact ⟨by decide,
    whitelist_nodup_amended.1 7 [1, 2, 1] (initialState 7) sAfterSet hok⟩

end Voting

namespace Voting

/-- C4: getWinner is a pure single pass over the choices (a function of the
state, defined in every lifecycle state, with no state output): with no
choices configured it returns has_winner = false and zero/empty remaining
fields; otherwise has_winner = true, the reported leader is the lowest
index achieving the maximum vote_count (its votes equal the maximum and
every earlier index has a strictly smaller count), the label is that
leader's label, and has_tie holds exactly when at least two choices share
the maximum - ties below the maximum never set it. -/
theorem getWinner_meets_spec (s : VState) :
    (s.choices = [] →
      getWinner s =
        { winnerIndex := 0, label := "", votes := 0,
          hasTie := false, hasWinner := false }) ∧
    (s.choices ≠ [] →
      (getWinner s).hasWinner = true ∧
      (getWinner s).votes = maxVotes s.choices ∧
      (getWinner s).winnerIndex < s.choices.length ∧
      ((s.choices.get? (getWinner s).winnerIndex).map Choice.votes
        = some (maxVotes s.choices)) ∧
      (∀ k, k < (getWinner s).winnerIndex →
        (s.choices.get? k).map Choice.votes ≠ some (maxVotes s.choices)) ∧
      ((s.choices.get? (getWinner s).winnerIndex).map Choice.label
        = some (getWinner s).label) ∧
      ((getWinner s).hasTie = true ↔
        2 ≤ s.choices.countP fun c => c.votes == maxVotes s.choices)) := by
  refine ⟨getWinner_eq_empty s, ?_⟩
  intro hne
  obtain ⟨c, rest, hcs⟩ : ∃ c rest, s.choices = c :: rest := by
    cases hcl : s.choices with
    | nil => exact absurd hcl hne
    | cons c rest => exact ⟨c, rest, rfl⟩
  have hgw := getWinner_eq_cons s c rest hcs
  have hex : ∃ x ∈ s.choices,
      (fun x : Choice => x.votes == maxVotes s.choices) x := by
    obtain ⟨x, hx, hvx⟩ := maxVotes_mem c rest
    rw [← hcs] at hx hvx
    exact ⟨x, hx, by simp [hvx]⟩
  have hlt : s.choices.findIdx
      (fun x : Choice => x.votes == maxVotes s.choices) < s.choices.length :=
    List.findIdx_lt_length_of_exists hex
  refine ⟨by rw [hgw], by rw [hgw], ?_, ?_, ?_, ?_, ?_⟩
  · rw [hgw]
    exact hlt
  · rw [hgw]
    show (s.choices.get? (s.choices.findIdx
        fun x => x.votes == maxVotes s.choices)).map Choice.votes
      = some (maxVotes s.choices)
    rw [List.get?_eq_getElem?, List.getElem?_eq_getElem hlt]
    have hpe := List.findIdx_getElem (w := hlt)
    have hveq : (s.choices.get ⟨_, hlt⟩).votes = maxVotes s.choices := by
      simpa using hpe
    simpa using hveq
  · rw [hgw]
    intro k hk
    show (s.choices.get? k).map Choice.votes ≠ some (maxVotes s.choices)
    have hkl : k < s.choices.length := lt_trans hk hlt
    rw [List.get?_eq_getElem?, List.getElem?_eq_getElem hkl]
    have hf := List.not_of_lt_findIdx hk
    intro hcon
    have hvk : (s.choices.get ⟨k, hkl⟩).votes = maxVotes s.choices := by
      simpa using hcon
    rw [beq_eq_false_iff_ne] at hf
    exact hf hvk
  · rw [hgw]
    show (s.choices.get? (s.choices.findIdx
        fun x => x.votes == maxVotes s.choices)).map Choice.label
      = some ((s.choices.getD (s.choices.findIdx
        fun x => x.votes == maxVotes s.choices)
        { label := "", votes := 0 }).label)
    rw [List.get?_eq_getElem?, List.getElem?_eq_getElem hlt]
    have hgd : s.choices.getD (s.choices.findIdx
        fun x => x.votes == maxVotes s.choices) { label := "", votes := 0 }
        = s.choices.get ⟨_, hlt⟩ := by
      rw [List.getD_eq_getElem?_getD, List.getElem?_eq_getElem hlt]
      rfl
    rw [hgd]
    rfl
  · rw [hgw]
    show (decide (2 ≤ s.choices.countP
        fun x => x.votes == maxVotes s.choices) = true) ↔
      2 ≤ s.choices.countP fun c => c.votes == maxVotes s.choices
    exact decide_eq_true_iff

/-- Witness for C4: on the concrete state sTally with counts [3, 3, 1]
(choices nonempty), getWinner reports index 0, votes 3, a tie, and a
winner - matching the spec scenario. -/
theorem getWinner_meets_spec_witness :
    sTally.choices ≠ [] ∧
    (getWinner sTally).hasWinner = true ∧
    (getWinner sTally).winnerIndex < sTally.choices.length ∧
    (getWinner sTally).votes = maxVotes sTally.choices := by
  obtain ⟨h1, h2, h3, _⟩ := (getWinner_meets_spec sTally).2 (by decide)
  exact ⟨by decide, h1, h3, h2⟩

end Voting
